import Mathlib

/-!
Verification development for the `falcontyping` repository.

This file gives a shallow embedding, in Lean 4, of the parts of the
repository that the claims C1..C10 are about:

* `falcontyping/typedjson/decoding.py` — the decode engine
  (`decode`, `decode_as_union`, `decode_as_primitive`, `decode_as_model`,
  `parse_int_from_string`, `parse_pydantic_from_dict`,
  `parse_marshmallow_from_dict`);
* `falcontyping/typedjson/base.py` — the failure taxonomy
  (`TypeMismatch`, `UnsupportedDecoding`, `ExternalSerializerException`,
  `DecodingError`);
* `falcontyping/base/utils.py` — signature validation
  (`validate_method_signature`, `validate_type_preconditions`,
  `is_supported_request_type`, `is_supported_response_type`,
  `resource_method_wrapper`);
* `falcontyping/base/types_.py` — the parameter descriptors
  (`RequestAnnotation`/`Path`/`Query`/`Body`, the per-method record);
* `falcontyping/middleware/typing_.py` — the request interceptor
  (`TypingMiddleware._decode_or_raise_error`, `process_resource`,
  `process_response`).

Python values are embedded as the inductive `PyVal` (floating point
numbers are modelled as exact rationals; the distinction only matters
for exotic float-literal strings, never for the inputs the claims use).
The two pluggable schema providers (pydantic, marshmallow) are modelled
as both installed, as in the repository's own test environment, and a
model class is a `ModelType` carrying its provider together with its
"construct from mapping" and "dump to mapping" operations; an operation
that raises is modelled as returning `Except.error` with the exception
rendered as an opaque `String` payload.
-/

namespace Falcontyping

/-- The two recognized external schema providers (pydantic's `BaseModel`
and marshmallow's `Schema`).  In `decoding.py` and `utils.py` both
imports succeed in the environment the repository tests itself in, so
both providers are modelled as installed. -/
inductive Provider where
  | pydantic
  | marshmallow
deriving DecidableEq, Repr

/-- Embedded Python runtime values: the JSON-like raw values the decode
engine receives plus instances of provider model classes.
`vModel provider typeId fields` is an instance of the model class
identified by `typeId`, registered under `provider`, whose attribute
mapping is `fields`.  Python `float`s are embedded as exact rationals. -/
inductive PyVal where
  | vNone
  | vBool (b : Bool)
  | vInt (n : Int)
  | vFloat (q : ℚ)
  | vStr (s : String)
  | vDict (entries : List (String × PyVal))
  | vModel (provider : Provider) (typeId : Nat) (fields : List (String × PyVal))

/-- A model class (a non-abstract subtype of a registered provider base
class).  `construct` embeds the provider's "construct from mapping"
operation (`type_(**json)` for pydantic, `type_().load(json)` for
marshmallow); `dump` embeds "dump to mapping" (`instance.dict()` /
`schema.dump(instance)`).  `Except.error e` models the operation
raising an exception whose rendering is `e`. -/
structure ModelType where
  provider : Provider
  typeId : Nat
  construct : PyVal → Except String PyVal
  dump : PyVal → Except String PyVal

/-- Embedded declared types, as the decode engine distinguishes them:
the five supported primitives, unions, model classes, unresolved type
variables, `Any`, and a catch-all for other plain classes the engine
does not support. -/
inductive PyType where
  | tStr
  | tFloat
  | tInt
  | tBool
  | tNone
  | tUnion (args : List PyType)
  | tModel (m : ModelType)
  | tTypeVar (name : String)
  | tAny
  | tOther (name : String)

/-- `Path` from `typedjson/base.py` (`Tuple[str, ...]`); the decode
engine threads it through unchanged and never extends it. -/
abbrev DecodePath := List String

/-- The three failure reasons of `typedjson/base.py`.
`externalSerializerException` carries the provider's original exception
(as its opaque rendering). -/
inductive FailureReason where
  | typeMismatch (path : DecodePath)
  | unsupportedDecoding (path : DecodePath)
  | externalSerializerException (path : DecodePath) (exception : String)
deriving DecidableEq, Repr

/-- `Union[Decoded, DecodingError]`: the outcome of every decoding
function — either a decoded value or a `DecodingError` wrapping one of
the three `FailureReason`s. -/
inductive DecodeResult where
  | ok (value : PyVal)
  | error (reason : FailureReason)

namespace DecodeResult

/-- `isinstance(result, DecodingError)`. -/
def isError : DecodeResult → Bool
  | .ok _ => false
  | .error _ => true

end DecodeResult

namespace FailureReason

/-- `isinstance(reason, TypeMismatch)`. -/
def isTypeMismatch : FailureReason → Bool
  | .typeMismatch _ => true
  | _ => false

/-- `isinstance(reason, ExternalSerializerException)`. -/
def isExternalSerializer : FailureReason → Bool
  | .externalSerializerException _ _ => true
  | _ => false

/-- The `path` attribute common to the three reasons. -/
def path : FailureReason → DecodePath
  | .typeMismatch p => p
  | .unsupportedDecoding p => p
  | .externalSerializerException p _ => p

end FailureReason

/-- Python truthiness (`if json:`) on embedded values: `None`, `False`,
zero, the empty string and the empty dict are falsy; model instances
are truthy. -/
def pyTruthy : PyVal → Bool
  | .vNone => false
  | .vBool b => b
  | .vInt n => n != 0
  | .vFloat q => q != 0
  | .vStr s => s != ""
  | .vDict entries => !entries.isEmpty
  | .vModel _ _ _ => true

/-- `origin_of(type_) is Union` (`annotation.py` reads `__origin__`;
only union types carry the `Union` origin among the types the engine
sees, and the tuple `(Union, Any)` tested in `decode_as_model` can only
match on `Union` since `Any` is never an `__origin__`). -/
def originIsUnion : PyType → Bool
  | .tUnion _ => true
  | _ => false

/-- `isinstance(json, type_)` for the class-like declared types the
engine actually reaches (never called on unions: both call sites test
for the union origin or for primitive-tuple membership first).  Note
`isinstance(True, int)` is `True` in Python because `bool` is a
subclass of `int`. -/
def isinstanceOf (j : PyVal) (t : PyType) : Bool :=
  match t, j with
  | .tStr, .vStr _ => true
  | .tFloat, .vFloat _ => true
  | .tInt, .vInt _ => true
  | .tInt, .vBool _ => true
  | .tBool, .vBool _ => true
  | .tNone, .vNone => true
  | .tModel m, .vModel p i _ => p = m.provider && i = m.typeId
  | _, _ => false

/-- `type_ in _PRIMITIVE_TYPES` where
`_PRIMITIVE_TYPES = (str, float, int, bool, type(None))`. -/
def isPrimitiveType : PyType → Bool
  | .tStr | .tFloat | .tInt | .tBool | .tNone => true
  | _ => false

/-- `issubclass(type_, PydanticBaseModel)` for the types reaching the
pydantic branch of `decode_as_model`. -/
def issubclassPydantic : PyType → Bool
  | .tModel m => m.provider = Provider.pydantic
  | _ => false

/-- `issubclass(type_, MarshmallowSchema)` for the types reaching the
marshmallow branch of `decode_as_model`. -/
def issubclassMarshmallow : PyType → Bool
  | .tModel m => m.provider = Provider.marshmallow
  | _ => false

/-- `type_.__class__ is TypeVar` for a union member. -/
def isTypeVarType : PyType → Bool
  | .tTypeVar _ => true
  | _ => false

/-! ### Python `float(...)` parsing, in exact arithmetic

`parse_int_from_string` calls `float(json)` and `number.is_integer()`.
The parser below accepts the decimal forms of Python float literals
(optional surrounding ASCII whitespace, optional sign, digits with an
optional single dot, an optional exponent) and returns the denoted
number exactly, as a mantissa/exponent pair `(m, e)` standing for
`m * 10 ^ e`; strings `float(...)` rejects — and the `inf`/`nan`
spellings, which can never pass `is_integer()` — map to `none`, which
`parse_int_from_string` turns into the same `TypeMismatch` the Python
code produces.  IEEE-754 rounding and digit-group underscores are not
modelled: the parsed number is exact, which agrees with Python on every
value any claim mentions. -/

/-- ASCII whitespace stripped by Python's `float(...)`. -/
def isPyWhitespace (c : Char) : Bool :=
  c = ' ' || c = '\t' || c = '\n' || c = '\r' || c = '\x0b' || c = '\x0c'

/-- The natural number denoted by a list of decimal digits. -/
def natOfDigits (l : List Char) : Nat :=
  l.foldl (fun a c => 10 * a + (c.toNat - '0'.toNat)) 0

/-- Parse the optional exponent suffix (`e`/`E`, optional sign, digits)
of a float literal; `some e` is the decimal exponent, `none` a parse
failure. -/
def parseExpSuffix : List Char → Option Int
  | [] => some 0
  | c :: rest =>
    if c = 'e' || c = 'E' then
      match rest with
      | '+' :: ds =>
        if ds ≠ [] && ds.all Char.isDigit then some (natOfDigits ds : Int) else none
      | '-' :: ds =>
        if ds ≠ [] && ds.all Char.isDigit then some (-(natOfDigits ds : Int)) else none
      | ds =>
        if ds ≠ [] && ds.all Char.isDigit then some (natOfDigits ds : Int) else none
    else none

/-- Parse an unsigned float literal body (after sign stripping) into a
mantissa/exponent pair denoting `mantissa * 10 ^ exponent`. -/
def pyFloatUnsigned (l : List Char) : Option (Int × Int) :=
  let intPart := l.takeWhile Char.isDigit
  let rest1 := l.dropWhile Char.isDigit
  match rest1 with
  | '.' :: rest2 =>
    let fracPart := rest2.takeWhile Char.isDigit
    let rest3 := rest2.dropWhile Char.isDigit
    if intPart.isEmpty && fracPart.isEmpty then none
    else
      match parseExpSuffix rest3 with
      | none => none
      | some e =>
        some ((natOfDigits (intPart ++ fracPart) : Int), e - (fracPart.length : Int))
  | _ =>
    if intPart.isEmpty then none
    else
      match parseExpSuffix rest1 with
      | none => none
      | some e => some ((natOfDigits intPart : Int), e)

/-- Python `float(s)`: the exact value of a decimal float literal as a
mantissa/exponent pair, or `none` where `float(s)` raises `ValueError`
(and for the `inf`/`nan` spellings, which behave identically
downstream). -/
def pyFloatParts (s : String) : Option (Int × Int) :=
  let l := s.data.dropWhile isPyWhitespace
  let l := (l.reverse.dropWhile isPyWhitespace).reverse
  match l with
  | '+' :: rest => pyFloatUnsigned rest
  | '-' :: rest => (pyFloatUnsigned rest).map (fun p => (-p.1, p.2))
  | rest => pyFloatUnsigned rest

/-- The rational number a mantissa/exponent pair denotes
(`m * 10 ^ e`); used to state properties about "the parsed
floating-point number". -/
def ratOfParts (p : Int × Int) : ℚ :=
  (p.1 : ℚ) * (10 : ℚ) ^ p.2

/-- `number.is_integer()` for the exactly-parsed number `m * 10 ^ e`:
true iff the exponent is non-negative or `10 ^ (-e)` divides `m`. -/
def partsIsInteger (p : Int × Int) : Bool :=
  if 0 ≤ p.2 then true
  else p.1 % ((10 : Int) ^ (-p.2).toNat) == 0

/-- `int(number)` for the exactly-parsed number `m * 10 ^ e`, in the
integral case where `parse_int_from_string` uses it (Python truncation
and exact division coincide there). -/
def partsIntValue (p : Int × Int) : Int :=
  if 0 ≤ p.2 then p.1 * (10 : Int) ^ p.2.toNat
  else p.1 / ((10 : Int) ^ (-p.2).toNat)

/-- `parse_int_from_string` of `decoding.py`: parse the string as a
float; if that fails or the float has a fractional part
(`not number.is_integer()` raises `ValueError` into the handler),
return a `TypeMismatch`; otherwise return `int(number)`. -/
def parse_int_from_string (json : String) (path : DecodePath) : DecodeResult :=
  match pyFloatParts json with
  | none => .error (.typeMismatch path)
  | some number =>
    if partsIsInteger number then .ok (.vInt (partsIntValue number))
    else .error (.typeMismatch path)

/-- `parse_pydantic_from_dict` of `decoding.py`: `type_(**json)`, with
any raised exception wrapped as `ExternalSerializerException`. -/
def parse_pydantic_from_dict (m : ModelType) (json : PyVal) (path : DecodePath) : DecodeResult :=
  match m.construct json with
  | .ok v => .ok v
  | .error e => .error (.externalSerializerException path e)

/-- `parse_marshmallow_from_dict` of `decoding.py`: `type_().load(json)`,
with any raised exception wrapped as `ExternalSerializerException`. -/
def parse_marshmallow_from_dict (m : ModelType) (json : PyVal) (path : DecodePath) : DecodeResult :=
  match m.construct json with
  | .ok v => .ok v
  | .error e => .error (.externalSerializerException path e)

/-- `decode_as_primitive` of `decoding.py`. -/
def decode_as_primitive (t : PyType) (json : PyVal) (path : DecodePath) : DecodeResult :=
  if ¬ isPrimitiveType t then .error (.unsupportedDecoding path)
  else if isinstanceOf json t then .ok json
  else
    match t, json with
    | .tInt, .vStr s => parse_int_from_string s path
    | _, _ => .error (.typeMismatch path)

/-- `decode_as_model` of `decoding.py`: reject union/`Any` origins,
pass instances through, and otherwise construct via the registered
provider when the raw value is truthy (a falsy raw value is a
`TypeMismatch`, a non-model class an `UnsupportedDecoding`). -/
def decode_as_model (t : PyType) (json : PyVal) (path : DecodePath) : DecodeResult :=
  if originIsUnion t then .error (.unsupportedDecoding path)
  else if isinstanceOf json t then .ok json
  else if issubclassPydantic t then
    match t with
    | .tModel m =>
      if pyTruthy json then parse_pydantic_from_dict m json path
      else .error (.typeMismatch path)
    | _ => .error (.unsupportedDecoding path)
  else if issubclassMarshmallow t then
    match t with
    | .tModel m =>
      if pyTruthy json then parse_marshmallow_from_dict m json path
      else .error (.typeMismatch path)
    | _ => .error (.unsupportedDecoding path)
  else .error (.unsupportedDecoding path)

mutual

/-- `decode` of `decoding.py`.  The body unrolls the Python loop
`for decoder in (decode_as_union, decode_as_primitive, decode_as_model)`
with its break-on-success and its recording of `TypeMismatch`-reasoned
failures into `result_final` (initially `UnsupportedDecoding(path)`);
failures with any other reason — including
`ExternalSerializerException` — do not update `result_final`. -/
def decode (t : PyType) (json : PyVal) (path : DecodePath) : DecodeResult :=
  match decode_as_union t json path with
  | .ok v => .ok v
  | .error r1 =>
    match decode_as_primitive t json path with
    | .ok v => .ok v
    | .error r2 =>
      match decode_as_model t json path with
      | .ok v => .ok v
      | .error r3 =>
        if r3.isTypeMismatch then DecodeResult.error r3
        else if r2.isTypeMismatch then DecodeResult.error r2
        else if r1.isTypeMismatch then DecodeResult.error r1
        else DecodeResult.error (.unsupportedDecoding path)
  termination_by (sizeOf t, 2)

/-- `decode_as_union` of `decoding.py`: non-unions are
`UnsupportedDecoding`; a union with an unresolved `TypeVar` member is
`UnsupportedDecoding`; otherwise the members are tried in order. -/
def decode_as_union (t : PyType) (json : PyVal) (path : DecodePath) : DecodeResult :=
  match t with
  | .tUnion args =>
    if args.any isTypeVarType then .error (.unsupportedDecoding path)
    else decodeUnionMembers args json path
  | _ => .error (.unsupportedDecoding path)
  termination_by (sizeOf t, 1)

/-- The member loop of `decode_as_union`
(`for type_ in args: decoded = decode(...); if not error: break`),
which returns the first non-failure and otherwise the last member's
failure.  A Python `Union` always has at least two members; the `[]`
equation is unreachable junk (the Python loop would leave `decoded`
unbound there). -/
def decodeUnionMembers (args : List PyType) (json : PyVal) (path : DecodePath) : DecodeResult :=
  match args with
  | [] => .error (.unsupportedDecoding path)
  | [t] => decode t json path
  | t :: rest =>
    match decode t json path with
    | .ok v => .ok v
    | .error _ => decodeUnionMembers rest json path
  termination_by (sizeOf args, 0)

end

/-! ### The request interceptor (`middleware/typing_.py`)

The middleware methods are effectful Python; they are embedded as
functions from the data they read to an explicit outcome value.  A
raised exception, a raised `falcon.HTTPError`, a raised
`TypeValidationError` and a normal return are the possible outcomes. -/

/-- HTTP statuses relevant to the interceptor contract: the 422 it
raises on decode failures, and the 400 the specification prescribes for
a missing path parameter. -/
inductive HTTPStatus where
  | badRequest
  | unprocessableEntity
deriving DecidableEq, Repr

/-- Outcome of a middleware checkpoint.  `resourceOk` carries the
decoded routed parameters `process_resource` leaves behind;
`responseOk` carries the final `response.media`; `httpError` is a
raised `falcon.HTTPError`; `reraised` is the unwrapped provider
exception re-raised for an `ExternalSerializerException`;
`typeValidationReturn` / `typeValidationBadType` /
`typeValidationSerialize` are the three `TypeValidationError` raises of
`process_response` (the first carries the handler identification and
the value interpolated into its message — note the code interpolates
the `DecodingError` itself, the original payload having been
overwritten by the decode result); `keyError` / `attributeError` are
ordinary Python exceptions escaping the middleware. -/
inductive MWOutcome where
  | noAction
  | resourceOk (parameters : List (String × PyVal))
  | responseOk (media : Option PyVal)
  | httpError (status : HTTPStatus)
  | reraised (exception : String)
  | typeValidationReturn (resource handler : String) (shown : DecodeResult)
  | typeValidationBadType (resource handler : String)
  | typeValidationSerialize (resource handler : String)
  | keyError (key : String)
  | attributeError (attr : String)

/-- `TypingMiddleware._decode_or_raise_error`: decode the value with
the hint; on a `DecodingError` whose reason is an
`ExternalSerializerException` re-raise the wrapped original exception,
on any other failure raise a 422 `falcon.HTTPError`; otherwise return
the decoded value. -/
def decode_or_raise_error (hint : PyType) (parameter : PyVal) : Except MWOutcome PyVal :=
  match decode hint parameter [] with
  | .ok v => .ok v
  | .error (.externalSerializerException _ e) => .error (.reraised e)
  | .error _ => .error (.httpError .unprocessableEntity)

/-- The `for parameter in parameters` loop of `process_resource`: each
routed parameter is re-bound to its decoded value, looking its hint up
in `get_type_hints(handler)` — a parameter without a hint raises
`KeyError` (`hints[parameter]`). -/
def decodeRoutedParameters (hints : List (String × PyType)) :
    List (String × PyVal) → Except MWOutcome (List (String × PyVal))
  | [] => .ok []
  | (name, value) :: rest =>
    match hints.lookup name with
    | none => .error (.keyError name)
    | some hint =>
      match decode_or_raise_error hint value with
      | .error o => .error o
      | .ok decoded =>
        match decodeRoutedParameters hints rest with
        | .error o => .error o
        | .ok rest' => .ok ((name, decoded) :: rest')

/-- `TypingMiddleware.process_resource` as it stands in
`middleware/typing_.py`: after the guards, decode every routed
parameter that is *present*, then read
`resource.methods_body_parameters` — an attribute that no class in the
repository defines (`base/resource.py` has only `_annotations`), so
the access raises `AttributeError` and the subsequent body decode is
unreachable.  There is no iteration over path descriptors and no
missing-path-parameter check anywhere in the method. -/
def process_resource (resourceTyped : Bool) (handlerName : Option String)
    (hints : List (String × PyType)) (parameters : List (String × PyVal)) : MWOutcome :=
  if ¬ resourceTyped then .noAction
  else
    match handlerName with
    | none => .noAction
    | some _ =>
      match decodeRoutedParameters hints parameters with
      | .error o => o
      | .ok _ => .attributeError "methods_body_parameters"

/-- `any(isinstance(media, type_) for type_ in _VALID_RESPONSE_TYPES)`
with `_VALID_RESPONSE_TYPES = schema_providers | {dict}`. -/
def isValidResponseValue : PyVal → Bool
  | .vDict _ => true
  | .vModel _ _ _ => true
  | _ => false

/-- The provider-specific serialization step of `process_response`
(the `try` block): a dict passes through, a pydantic instance becomes
its attribute mapping (`media.dict()`), a marshmallow instance is
dumped through the *declared* hint (`hint().dump(media)` — raising,
hence serialized-failure, when the hint is not a constructible schema
class). -/
def serializeResponseValue (hint : PyType) (media : PyVal) : Except String PyVal :=
  match media with
  | .vDict entries => .ok (.vDict entries)
  | .vModel .pydantic _ fields => .ok (.vDict fields)
  | .vModel .marshmallow _ _ =>
    (match hint with
     | .tModel m => m.dump media
     | _ => .error "TypeError")
  | v => .ok v

/-- `TypingMiddleware.process_response`: after the guards, decode
`response.media` against the handler's declared return hint
(`get_type_hints(handler)['return']`, a `KeyError` when absent); a
`DecodingError` raises `TypeValidationError`; a `None` outcome leaves
the response untouched; a non-dict non-model outcome raises
`TypeValidationError`; otherwise the serialized value is assigned to
`response.media`. -/
def process_response (resourceTyped succeeded : Bool) (resourceName : String)
    (handlerName : Option String) (returnHint : Option PyType)
    (respMedia : Option PyVal) : MWOutcome :=
  if ¬ (resourceTyped && succeeded) then .noAction
  else
    match handlerName with
    | none => .noAction
    | some handler =>
      match returnHint with
      | none => .keyError "return"
      | some hint =>
        match decode hint (respMedia.getD .vNone) [] with
        | .error r => .typeValidationReturn resourceName handler (.error r)
        | .ok media =>
          match media with
          | .vNone => .responseOk respMedia
          | m =>
            if ¬ isValidResponseValue m then
              .typeValidationBadType resourceName handler
            else
              match serializeResponseValue hint m with
              | .ok wire => .responseOk (some wire)
              | .error _ => .typeValidationSerialize resourceName handler

/-! ### Registration-time patching (`base/utils.py`) -/

/-- The mutable parts of a falcon `Response` the wrapped handler can
touch: the `media` payload slot and, abstractly, everything else. -/
structure PyResponse (ρ : Type) where
  media : Option PyVal
  rest : ρ

/-- `resource_method_wrapper` of `base/utils.py`: `curried` invokes the
raw handler (modelled as a function from the request and response state
to the updated states plus its returned value) and assigns the returned
value to `response.media` only when it is truthy (`if media:`). -/
def resource_method_wrapper {ρq ρ : Type}
    (method : ρq → PyResponse ρ → ρq × PyResponse ρ × PyVal) :
    ρq → PyResponse ρ → ρq × PyResponse ρ :=
  fun request response =>
    let r := method request response
    if pyTruthy r.2.2 then (r.1, { r.2.1 with media := some r.2.2 })
    else (r.1, r.2.1)

/-! ### Signature validation (`base/utils.py`, `base/types_.py`)

A handler parameter's annotation may be a plain type, an *instance* of
the `Query` or `Body` wrapper from `types_.py`, the `falcon.Request` or
`falcon.Response` capability class, or absent.  `Hint` covers exactly
these cases (`Any` is `Hint.ty PyType.tAny`). -/

inductive Hint where
  | ty (t : PyType)
  | wrapQuery (t : PyType)
  | wrapBody (t : PyType)
  | request
  | response

/-- The registered schema providers
(`_AVAILABLE_EXTERNAL_SCHEMA_PRODIVERS`): both imports succeed in the
modelled environment. -/
def schemaProviders : List Provider := [.marshmallow, .pydantic]

/-- The kind a non-path parameter resolves to. -/
inductive ParamKind where
  | query
  | body
deriving DecidableEq, Repr

/-- `_HTTP_VERBS_WITH_BODIES = {'on_post', 'on_put', 'on_patch'}`. -/
def httpVerbsWithBodies : List String := ["on_post", "on_put", "on_patch"]

/-- The resolved kind of one non-path parameter (the body of the
`for name in non_path_parameters_names` loop of
`validate_method_signature`): an explicit `Query`/`Body` wrapper wins;
otherwise POST/PUT/PATCH methods infer `Body` and every other method
infers `Query`. -/
def resolvedKind (methodName : String) : Option Hint → ParamKind
  | some (.wrapQuery _) => .query
  | some (.wrapBody _) => .body
  | _ => if methodName ∈ httpVerbsWithBodies then .body else .query

/-- `issubclass(type_, parent) for parent in providers` together with
the `type_ == type(None)` escape, on a member class, as both
`is_supported_request_type` and `is_supported_response_type` compute it
(they agree on plain classes).  `Except.error ()` models the
`TypeError` that `issubclass` raises when its first argument is not a
class (`Any`, a `TypeVar`, a parameterized generic, a union). -/
def classSupported : PyType → Except Unit Bool
  | .tModel _ => .ok true
  | .tNone => .ok true
  | .tStr | .tFloat | .tInt | .tBool => .ok false
  | .tOther _ => .ok false
  | .tAny => .error ()
  | .tTypeVar _ => .error ()
  | .tUnion _ => .error ()

mutual

/-- The recursive `predicate` of `validate_type_preconditions` applied
to one union member: a nested union recurses, any other member goes to
the type checker. -/
def predicateMember (t : PyType) : Except Unit Bool :=
  match t with
  | .tUnion args => predicateMembers args
  | t' => classSupported t'
  termination_by (sizeOf t, 1)

/-- `all(predicate(arg) for arg in args)`: short-circuits on the first
`False`; a raised `TypeError` propagates. -/
def predicateMembers (args : List PyType) : Except Unit Bool :=
  match args with
  | [] => .ok true
  | t :: rest =>
    match predicateMember t with
    | .error e => .error e
    | .ok false => .ok false
    | .ok true => predicateMembers rest
  termination_by (sizeOf args, 0)

end

/-- `is_supported_request_type` applied through `predicate`: the
wrapper instances are unwrapped first (`isinstance(type_, Query/Body)`)
and a top-level plain union recurses into its members
(`origin_of` of a wrapper instance is `None`, so only a plain union
hint has the `Union` origin). -/
def predicateRequest : Hint → Except Unit Bool
  | .ty (.tUnion args) => predicateMembers args
  | .ty t => classSupported t
  | .wrapQuery t => classSupported t
  | .wrapBody t => classSupported t
  | .request => .ok false
  | .response => .ok false

/-- `is_supported_response_type` applied through `predicate`: no
unwrapping, so a wrapper instance reaches `issubclass` directly and
raises `TypeError`; `falcon.Request`/`falcon.Response` are ordinary
non-provider classes. -/
def predicateResponse : Hint → Except Unit Bool
  | .ty (.tUnion args) => predicateMembers args
  | .ty t => classSupported t
  | .wrapQuery _ => .error ()
  | .wrapBody _ => .error ()
  | .request => .ok false
  | .response => .ok false

/-- `validate_type_preconditions`: no registered provider is an
immediate error; an absent (falsy) hint is skipped; a `False` predicate
or a raised `TypeError` becomes a `TypeValidationError`.  All errors in
the validation path model raised `TypeValidationError`s. -/
def validate_type_preconditions (hint : Option Hint)
    (checker : Hint → Except Unit Bool) : Except String Unit :=
  if schemaProviders.isEmpty then
    .error "No schema provider is installed. You need to install either Marshmallow or Pydantic"
  else
    match hint with
    | none => .ok ()
    | some h =>
      match checker h with
      | .ok true => .ok ()
      | .ok false =>
        .error "Resource methods must accept/return either Nothing, marshmallow.Schema or pydantic.BaseModel"
      | .error _ =>
        .error "Resource methods must accept/return either Nothing, marshmallow.Schema or pydantic.BaseModel"

/-- `RequestAnnotation` of `types_.py` (common to its `Path`, `Query`
and `Body`): the parameter name, its wrapped annotation, and the
`is_usable` flag (`type_ not in (Any, type(None))`). -/
structure ParamRecord where
  name : String
  wrapped : Option Hint
  usable : Bool

/-- Build a `RequestAnnotation`, computing `is_usable` as
`types_.py` does. -/
def mkParamRecord (name : String) (wrapped : Option Hint) : ParamRecord :=
  { name := name
    wrapped := wrapped
    usable := match wrapped with
      | some (.ty .tAny) => false
      | some (.ty .tNone) => false
      | _ => true }

/-- `HTTPMethodAnnotation` of `types_.py`: the ordered path
descriptors, the optional query and body descriptors and the declared
return annotation. -/
structure MethodRecord where
  pathParams : List ParamRecord
  query : Option ParamRecord
  body : Option ParamRecord
  returns : Option Hint

/-- Does a hint look like `Any` to `hints.get(p, None) is Any`? -/
def hintIsAny : Option Hint → Bool
  | some (.ty .tAny) => true
  | _ => false

/-- `hints.get(arguments[1], Any) not in [falcon.Request, Any]`,
negated. -/
def requestHintOk : Option Hint → Bool
  | none => true
  | some .request => true
  | some (.ty .tAny) => true
  | _ => false

/-- `hints.get(arguments[2], Any) not in [falcon.Response, Any]`,
negated. -/
def responseHintOk : Option Hint → Bool
  | none => true
  | some .response => true
  | some (.ty .tAny) => true
  | _ => false

/-- The non-path parameter names:
`set(arguments) - (path_parameters_names | set(islice(arguments, 3)) | {'return'})`.
Python argument names are distinct and `return` is a reserved word, so
dropping the first three (`self`, request, response) and filtering the
path names is the same set; a list keeps the model executable (the
Python set's iteration order cannot change whether validation
succeeds). -/
def nonPathNames (arguments pathParametersNames : List String) : List String :=
  (arguments.drop 3).filter (fun n => ¬ n ∈ pathParametersNames ∧ n ≠ "return")

/-- The body of one iteration of the
`for name in non_path_parameters_names` loop of
`validate_method_signature`: check the hint's preconditions, resolve
the parameter's kind, error if that kind is already taken
(`if parameter_type in non_path_parameters`), else record it. -/
def nonPathStep (methodName : String) (hints : List (String × Hint)) (name : String)
    (q b : Option ParamRecord) :
    Except String (Option ParamRecord × Option ParamRecord) :=
  match validate_type_preconditions (hints.lookup name) predicateRequest with
  | .error e => .error e
  | .ok _ =>
    match resolvedKind methodName (hints.lookup name) with
    | .query =>
      match q with
      | some _ =>
        .error "There can not be more than one body parameter and one query paremeter."
      | none => .ok (some (mkParamRecord name (hints.lookup name)), b)
    | .body =>
      match b with
      | some _ =>
        .error "There can not be more than one body parameter and one query paremeter."
      | none => .ok (q, some (mkParamRecord name (hints.lookup name)))

/-- The `for name in non_path_parameters_names` loop of
`validate_method_signature`. -/
def processNonPath (methodName : String) (hints : List (String × Hint)) :
    List String → Option ParamRecord → Option ParamRecord →
    Except String (Option ParamRecord × Option ParamRecord)
  | [], q, b => .ok (q, b)
  | name :: rest, q, b =>
    match nonPathStep methodName hints name q b with
    | .error e => .error e
    | .ok (q', b') => processNonPath methodName hints rest q' b'

/-- The path-descriptor list: one `Path` record per path parameter
name that has an annotation (`filter(hints.get, path_parameters_names)`;
the `register_type` call made there only registers decoding hooks and
does not affect validation). -/
def buildPathRecords (hints : List (String × Hint))
    (pathParametersNames : List String) : List ParamRecord :=
  (pathParametersNames.filter (fun n => (hints.lookup n).isSome)).map
    (fun n => mkParamRecord n (hints.lookup n))

/-- `validate_method_signature` of `base/utils.py`, in source order:
return-annotation preconditions; every path-parameter name must be a
declared parameter and must not be `Any`; at least three positional
parameters (`self`, request, response); the request/response
annotations must be the capability types or absent; then the non-path
loop; finally the assembled `HTTPMethodAnnotation`.  Every `.error` is
a raised `TypeValidationError`. -/
def validate_method_signature (methodName : String) (arguments : List String)
    (hints : List (String × Hint)) (pathParametersNames : List String) :
    Except String MethodRecord :=
  match validate_type_preconditions (hints.lookup "return") predicateResponse with
  | .error e => .error e
  | .ok _ =>
    if pathParametersNames.any
        (fun p => hintIsAny (hints.lookup p) || ¬ arguments.contains p) then
      .error "Path parameter has type hint Any or is missing from signature"
    else if arguments.length < 3 then
      .error "Every resource method must have the first two parameters as falcon.Request and falcon.Response"
    else if ¬ requestHintOk (hints.lookup (arguments.getD 1 "")) then
      .error "First parameter must be of type falcon.Request"
    else if ¬ responseHintOk (hints.lookup (arguments.getD 2 "")) then
      .error "Second parameter must be of type falcon.Response"
    else
      match processNonPath methodName hints
          (nonPathNames arguments pathParametersNames) none none with
      | .error e => .error e
      | .ok (q, b) =>
        .ok { pathParams := buildPathRecords hints pathParametersNames
              query := q
              body := b
              returns := hints.lookup "return" }

/-! ### Helper predicates used in theorem statements -/

/-- Is the hint an explicit `Query`/`Body` wrapper instance? -/
def isWrapperHint : Option Hint → Bool
  | some (.wrapQuery _) => true
  | some (.wrapBody _) => true
  | _ => false

/-- Does a decode outcome carry an `ExternalSerializerException`
reason? -/
def hasExternalReason : DecodeResult → Bool
  | .error (.externalSerializerException _ _) => true
  | _ => false

/-- Is the middleware outcome a raised `falcon.HTTPError` (a client
error)? -/
def isHTTPErrorOutcome : MWOutcome → Bool
  | .httpError _ => true
  | _ => false

/-- Is the middleware outcome a raised HTTP 400 Bad Request? -/
def isBadRequestOutcome : MWOutcome → Bool
  | .httpError .badRequest => true
  | _ => false

/-! ### Shape lemmas for the decode engine -/

lemma parse_int_from_string_error_shape (s : String) (p : DecodePath) (r : FailureReason)
    (h : parse_int_from_string s p = .error r) : r = .typeMismatch p := by
  unfold parse_int_from_string at h
  rcases hf : pyFloatParts s with _ | q <;> simp only [hf] at h
  · injection h with h2; exact h2.symm
  · split at h
    · exact absurd h (by simp)
    · injection h with h2; exact h2.symm

lemma decode_as_primitive_error_shape (t : PyType) (j : PyVal) (p : DecodePath)
    (r : FailureReason) (h : decode_as_primitive t j p = .error r) :
    r = .typeMismatch p ∨ r = .unsupportedDecoding p := by
  unfold decode_as_primitive at h
  split at h
  · cases h; exact Or.inr rfl
  · split at h
    · cases h
    · split at h
      · exact Or.inl (parse_int_from_string_error_shape _ _ _ h)
      · cases h; exact Or.inl rfl

lemma decode_as_model_error_shape (t : PyType) (j : PyVal) (p : DecodePath)
    (r : FailureReason) (h : decode_as_model t j p = .error r) :
    r = .typeMismatch p ∨ r = .unsupportedDecoding p ∨
      ∃ e, r = .externalSerializerException p e := by
  unfold decode_as_model at h
  split at h
  · cases h; exact Or.inr (Or.inl rfl)
  · split at h
    · cases h
    · split at h
      · split at h
        · split at h
          · unfold parse_pydantic_from_dict at h
            split at h
            · cases h
            · cases h; exact Or.inr (Or.inr ⟨_, rfl⟩)
          · cases h; exact Or.inl rfl
        · cases h; exact Or.inr (Or.inl rfl)
      · split at h
        · split at h
          · split at h
            · unfold parse_marshmallow_from_dict at h
              split at h
              · cases h
              · cases h; exact Or.inr (Or.inr ⟨_, rfl⟩)
            · cases h; exact Or.inl rfl
          · cases h; exact Or.inr (Or.inl rfl)
        · cases h; exact Or.inr (Or.inl rfl)

lemma decodeUnionMembers_error_shape (args : List PyType) (j : PyVal) (p : DecodePath)
    (r : FailureReason) (h : decodeUnionMembers args j p = .error r) :
    r = .unsupportedDecoding p ∨ ∃ t ∈ args, decode t j p = .error r := by
  induction args with
  | nil =>
    rw [decodeUnionMembers] at h
    cases h; exact Or.inl rfl
  | cons t rest ih =>
    cases rest with
    | nil =>
      rw [decodeUnionMembers] at h
      exact Or.inr ⟨t, List.mem_singleton_self t, h⟩
    | cons t2 rest2 =>
      rw [decodeUnionMembers] at h
      · cases hd : decode t j p with
        | ok v => rw [hd] at h; exact absurd h (by simp)
        | error r' =>
          rw [hd] at h
          rcases ih h with h1 | ⟨m, hm, hdm⟩
          · exact Or.inl h1
          · exact Or.inr ⟨m, List.mem_cons_of_mem _ hm, hdm⟩
      · intro hh; cases hh

lemma decode_as_primitive_union (args : List PyType) (j : PyVal) (p : DecodePath) :
    decode_as_primitive (.tUnion args) j p = .error (.unsupportedDecoding p) := by
  simp [decode_as_primitive, isPrimitiveType]

lemma decode_as_model_union (args : List PyType) (j : PyVal) (p : DecodePath) :
    decode_as_model (.tUnion args) j p = .error (.unsupportedDecoding p) := by
  simp [decode_as_model, originIsUnion]

lemma decode_as_union_not_union (t : PyType) (j : PyVal) (p : DecodePath)
    (h : originIsUnion t = false) :
    decode_as_union t j p = .error (.unsupportedDecoding p) := by
  cases t <;> simp_all [decode_as_union, originIsUnion]

/-- Every failure `decode` returns is a `TypeMismatch` or an
`UnsupportedDecoding` at the unchanged path: the strategy loop's
`result_final` only ever holds the initial `UnsupportedDecoding` or a
recorded `TypeMismatch`, so in particular an
`ExternalSerializerException` produced by `decode_as_model` never
escapes `decode`. -/
lemma decode_error_shape_bounded :
    ∀ (n : Nat) (t : PyType), sizeOf t ≤ n → ∀ (j : PyVal) (p : DecodePath) (r : FailureReason),
      decode t j p = .error r → r = .typeMismatch p ∨ r = .unsupportedDecoding p := by
  intro n
  induction n with
  | zero => intro t ht; exfalso; cases t <;> simp at ht
  | succ n ih =>
    intro t ht j p r h
    rw [decode] at h
    split at h
    · exact absurd h (by simp)
    next r1 h1 =>
      split at h
      · exact absurd h (by simp)
      next r2 h2 =>
        split at h
        · exact absurd h (by simp)
        next r3 h3 =>
          have hr1 : r1 = .typeMismatch p ∨ r1 = .unsupportedDecoding p := by
            by_cases ho : originIsUnion t = true
            · obtain ⟨args, rfl⟩ : ∃ args, t = PyType.tUnion args := by
                cases t <;> first
                  | exact ⟨_, rfl⟩
                  | simp [originIsUnion] at ho
              rw [decode_as_union] at h1
              by_cases htv : args.any isTypeVarType
              · simp only [htv, if_true] at h1
                injection h1 with h1'; exact Or.inr h1'.symm
              · simp only [htv, if_false] at h1
                rcases decodeUnionMembers_error_shape args j p r1 h1 with hu | ⟨m, hm, hdm⟩
                · exact Or.inr hu
                · have hsm : sizeOf m ≤ n := by
                    have hmem := List.sizeOf_lt_of_mem hm
                    have h2 : sizeOf (PyType.tUnion args) ≤ n + 1 := ht
                    simp only [PyType.tUnion.sizeOf_spec] at h2
                    omega
                  exact ih m hsm j p r1 hdm
            · rw [decode_as_union_not_union t j p (by simpa using ho)] at h1
              injection h1 with h1'; exact Or.inr h1'.symm
          have hr2 : r2 = .typeMismatch p ∨ r2 = .unsupportedDecoding p :=
            decode_as_primitive_error_shape t j p r2 h2
          have hr3 : r3 = .typeMismatch p ∨ r3 = .unsupportedDecoding p ∨
              ∃ e, r3 = .externalSerializerException p e :=
            decode_as_model_error_shape t j p r3 h3
          split at h
          next htm3 =>
            injection h with h'
            subst h'
            rcases hr3 with h' | h' | ⟨e, h'⟩
            · exact Or.inl h'
            · rw [h'] at htm3; exact absurd htm3 (by simp [FailureReason.isTypeMismatch])
            · rw [h'] at htm3; exact absurd htm3 (by simp [FailureReason.isTypeMismatch])
          split at h
          next htm2 =>
            injection h with h'
            subst h'
            rcases hr2 with h' | h'
            · exact Or.inl h'
            · rw [h'] at htm2; exact absurd htm2 (by simp [FailureReason.isTypeMismatch])
          split at h
          next htm1 =>
            injection h with h'
            subst h'
            rcases hr1 with h' | h'
            · exact Or.inl h'
            · rw [h'] at htm1; exact absurd htm1 (by simp [FailureReason.isTypeMismatch])
          injection h with h'
          exact Or.inr h'.symm

/-- Shape of any `decode` outcome: a success, a `TypeMismatch` at the
given path, or an `UnsupportedDecoding` at the given path. -/
lemma decode_result_cases (t : PyType) (j : PyVal) (p : DecodePath) :
    (∃ v, decode t j p = .ok v) ∨ decode t j p = .error (.typeMismatch p) ∨
      decode t j p = .error (.unsupportedDecoding p) := by
  cases h : decode t j p with
  | ok v => exact Or.inl ⟨v, rfl⟩
  | error r =>
    rcases decode_error_shape_bounded (sizeOf t) t le_rfl j p r h with h' | h'
    · exact Or.inr (Or.inl (h' ▸ rfl))
    · exact Or.inr (Or.inr (h' ▸ rfl))

/-- `decode` never returns an `ExternalSerializerException`-reasoned
failure. -/
lemma decode_not_external (t : PyType) (j : PyVal) (p : DecodePath) :
    hasExternalReason (decode t j p) = false := by
  rcases decode_result_cases t j p with ⟨v, h⟩ | h | h <;>
    simp [h, hasExternalReason]

/-- On a union with no unresolved type variable, `decode` returns
exactly what the member loop returns: a member success propagates
through the strategy loop unchanged, a `TypeMismatch` member failure is
recorded, and an `UnsupportedDecoding` member failure coincides with
the loop's initial value (member failures are never
`ExternalSerializerException`, by `decode_error_shape_bounded`). -/
lemma decode_union_eq_members (args : List PyType) (j : PyVal) (p : DecodePath)
    (hTV : args.any isTypeVarType = false) :
    decode (.tUnion args) j p = decodeUnionMembers args j p := by
  have hu : decode_as_union (.tUnion args) j p = decodeUnionMembers args j p := by
    rw [decode_as_union, hTV]
    simp
  rw [decode, hu]
  cases hm : decodeUnionMembers args j p with
  | ok v => rfl
  | error r =>
    have hr : r = .typeMismatch p ∨ r = .unsupportedDecoding p := by
      rcases decodeUnionMembers_error_shape args j p r hm with h1 | ⟨m, _, hdm⟩
      · exact Or.inr h1
      · exact decode_error_shape_bounded (sizeOf m) m le_rfl j p r hdm
    rw [decode_as_primitive_union, decode_as_model_union]
    rcases hr with hr | hr <;> subst hr <;>
      simp [FailureReason.isTypeMismatch]

/-- A union containing an unresolved type variable decodes to
`UnsupportedDecoding` without trying any member. -/
lemma decode_union_typevar (args : List PyType) (j : PyVal) (p : DecodePath)
    (hTV : args.any isTypeVarType = true) :
    decode (.tUnion args) j p = .error (.unsupportedDecoding p) := by
  have hu : decode_as_union (.tUnion args) j p = .error (.unsupportedDecoding p) := by
    rw [decode_as_union, hTV]
    simp
  rw [decode, hu]
  rw [decode_as_primitive_union, decode_as_model_union]
  simp [FailureReason.isTypeMismatch]

/-- When every member fails, the member loop returns the last member's
decode outcome. -/
lemma decodeUnionMembers_all_fail (args : List PyType) (j : PyVal) (p : DecodePath)
    (t : PyType) (hlast : args.getLast? = some t)
    (hfail : ∀ m ∈ args, (decode m j p).isError = true) :
    decodeUnionMembers args j p = decode t j p := by
  induction args with
  | nil => cases hlast
  | cons a rest ih =>
    cases rest with
    | nil =>
      simp only [List.getLast?_singleton, Option.some.injEq] at hlast
      subst hlast
      rw [decodeUnionMembers]
    | cons b rest2 =>
      rw [decodeUnionMembers]
      · have ha := hfail a (List.mem_cons_self a _)
        cases hd : decode a j p with
        | ok v => rw [hd] at ha; simp [DecodeResult.isError] at ha
        | error r =>
          exact ih (by simpa using hlast)
            (fun m hm => hfail m (List.mem_cons_of_mem _ hm))
      · intro hh; cases hh

/-- When the members before `t` all fail and `t` decodes without
failure, the member loop returns `decode t`. -/
lemma decodeUnionMembers_first_ok (pre post : List PyType) (t : PyType)
    (j : PyVal) (p : DecodePath)
    (hpre : ∀ m ∈ pre, (decode m j p).isError = true)
    (hok : (decode t j p).isError = false) :
    decodeUnionMembers (pre ++ t :: post) j p = decode t j p := by
  induction pre with
  | nil =>
    cases post with
    | nil => simp only [List.nil_append]; rw [decodeUnionMembers]
    | cons b rest2 =>
      simp only [List.nil_append]
      rw [decodeUnionMembers]
      · cases hd : decode t j p with
        | ok v => rfl
        | error r => rw [hd] at hok; simp [DecodeResult.isError] at hok
      · intro hh; cases hh
  | cons a rest ih =>
    have hlist : (a :: rest) ++ t :: post = a :: (rest ++ t :: post) := rfl
    rw [hlist, decodeUnionMembers]
    · have ha := hpre a (List.mem_cons_self a _)
      cases hd : decode a j p with
      | ok v => rw [hd] at ha; simp [DecodeResult.isError] at ha
      | error r =>
        exact ih (fun m hm => hpre m (List.mem_cons_of_mem _ hm))
    · intro hh; simp at hh

/-! ### Concrete model fixtures

Concrete `ModelType`s used to instantiate the claims: a pydantic model
whose constructor accepts any non-empty mapping, and one whose
constructor always raises. -/

/-- A registered pydantic model class: `UserModel(**json)` succeeds on
a mapping (yielding the instance with those fields) and raises a
`TypeError` on anything else, as `type_(**json)` does. -/
def userModel : ModelType :=
  { provider := .pydantic
    typeId := 1
    construct := fun j =>
      match j with
      | .vDict fs => .ok (.vModel .pydantic 1 fs)
      | _ => .error "TypeError: argument is not a mapping"
    dump := fun j =>
      match j with
      | .vModel _ _ fs => .ok (.vDict fs)
      | _ => .error "TypeError" }

/-- A registered pydantic model class whose constructor always raises
(e.g. a required-field `ValidationError`). -/
def boomModel : ModelType :=
  { provider := .pydantic
    typeId := 2
    construct := fun _ => .error "ValidationError: boom"
    dump := fun _ => .error "ValidationError: boom" }

/-! ### Primitive-strategy lemmas -/

lemma decode_as_model_nonmodel (t : PyType) (j : PyVal) (p : DecodePath)
    (h1 : originIsUnion t = false) (h2 : issubclassPydantic t = false)
    (h3 : issubclassMarshmallow t = false) (hinst : isinstanceOf j t = false) :
    decode_as_model t j p = .error (.unsupportedDecoding p) := by
  simp [decode_as_model, h1, h2, h3, hinst]

lemma primitive_not_union (t : PyType) (h : isPrimitiveType t = true) :
    originIsUnion t = false := by
  cases t <;> simp_all [isPrimitiveType, originIsUnion]

lemma primitive_not_model (t : PyType) (h : isPrimitiveType t = true) :
    issubclassPydantic t = false ∧ issubclassMarshmallow t = false := by
  cases t <;> simp_all [isPrimitiveType, issubclassPydantic, issubclassMarshmallow]

/-- The primitive strategy passes an already-typed value through
unchanged, and so does the whole decode pipeline. -/
lemma decode_primitive_pass (t : PyType) (v : PyVal) (p : DecodePath)
    (hprim : isPrimitiveType t = true) (hinst : isinstanceOf v t = true) :
    decode t v p = .ok v := by
  have h1 : decode_as_union t v p = .error (.unsupportedDecoding p) :=
    decode_as_union_not_union t v p (primitive_not_union t hprim)
  have h2 : decode_as_primitive t v p = .ok v := by
    simp [decode_as_primitive, hprim, hinst]
  rw [decode, h1, h2]

/-- `decode(int, string)` is exactly `parse_int_from_string`. -/
lemma decode_int_string (s : String) (p : DecodePath) :
    decode .tInt (.vStr s) p = parse_int_from_string s p := by
  have h1 : decode_as_union .tInt (.vStr s) p = .error (.unsupportedDecoding p) :=
    decode_as_union_not_union _ _ _ rfl
  have h2 : decode_as_primitive .tInt (.vStr s) p = parse_int_from_string s p := by
    simp [decode_as_primitive, isPrimitiveType, isinstanceOf]
  have h3 : decode_as_model .tInt (.vStr s) p = .error (.unsupportedDecoding p) :=
    decode_as_model_nonmodel _ _ _ rfl rfl rfl rfl
  rw [decode, h1, h2]
  cases hp : parse_int_from_string s p with
  | ok v => rfl
  | error r =>
    have hr := parse_int_from_string_error_shape s p r hp
    subst hr
    rw [h3]
    simp [FailureReason.isTypeMismatch]

/-! ### Claim theorems: the primitive strategy (C7, C9, C10) -/

/-- C7: for every primitive declared type T in {str, float, int, bool,
NoneType} and every raw value v that is an instance of T,
`decode(T, v)` returns v itself unchanged. -/
theorem C7_primitive_identity (t : PyType) (v : PyVal) (p : DecodePath)
    (hprim : isPrimitiveType t = true) (hinst : isinstanceOf v t = true) :
    decode t v p = .ok v :=
  decode_primitive_pass t v p hprim hinst

theorem C7_witness :
    isPrimitiveType .tStr = true ∧ isinstanceOf (.vStr "hello") .tStr = true ∧
      decode .tStr (.vStr "hello") [] = .ok (.vStr "hello") :=
  ⟨rfl, rfl, C7_primitive_identity .tStr (.vStr "hello") [] rfl rfl⟩

/-- C9: for declared type int and a boolean raw value b, `decode(int, b)`
returns b unchanged rather than a `TypeMismatch`, because `bool` is a
subclass of `int` and so booleans pass the primitive strategy's
`isinstance` check. -/
theorem C9_bool_as_int (b : Bool) :
    isinstanceOf (.vBool b) .tInt = true ∧
      decode .tInt (.vBool b) [] = .ok (.vBool b) :=
  ⟨rfl, decode_primitive_pass .tInt (.vBool b) [] rfl rfl⟩

/-- C10: `decode(float, n)` on an integer raw value n is a
`TypeMismatch` — there is no int-to-float widening — and, in general,
the primitive strategy either passes an instance through unchanged,
fails with `TypeMismatch`, or (only for declared int on a string raw
value) delegates to the string-to-int parse: no other coercion
exists. -/
theorem C10_no_widening :
    (∀ (n : Int) (p : DecodePath),
        decode .tFloat (.vInt n) p = .error (.typeMismatch p)) ∧
    (∀ (t : PyType) (j : PyVal) (p : DecodePath), isPrimitiveType t = true →
        (isinstanceOf j t = true ∧ decode_as_primitive t j p = .ok j) ∨
        decode_as_primitive t j p = .error (.typeMismatch p) ∨
        (t = .tInt ∧ ∃ s, j = .vStr s ∧
          decode_as_primitive t j p = parse_int_from_string s p)) := by
  constructor
  · intro n p
    have h1 : decode_as_union .tFloat (.vInt n) p = .error (.unsupportedDecoding p) :=
      decode_as_union_not_union _ _ _ rfl
    have h2 : decode_as_primitive .tFloat (.vInt n) p = .error (.typeMismatch p) := by
      simp [decode_as_primitive, isPrimitiveType, isinstanceOf]
    have h3 : decode_as_model .tFloat (.vInt n) p = .error (.unsupportedDecoding p) :=
      decode_as_model_nonmodel _ _ _ rfl rfl rfl rfl
    rw [decode, h1, h2, h3]
    simp [FailureReason.isTypeMismatch]
  · intro t j p hprim
    by_cases hinst : isinstanceOf j t = true
    · exact Or.inl ⟨hinst, by simp [decode_as_primitive, hprim, hinst]⟩
    · replace hinst : isinstanceOf j t = false := by simpa using hinst
      cases t <;> simp_all [isPrimitiveType] <;> cases j <;>
        simp_all [decode_as_primitive, isPrimitiveType, isinstanceOf]

/-- A primitive-typed decode that fails in the primitive strategy with
a `TypeMismatch` fails the same way overall. -/
lemma decode_mismatch_of (t : PyType) (j : PyVal) (p : DecodePath)
    (hprim : isPrimitiveType t = true) (hinst : isinstanceOf j t = false)
    (hps : decode_as_primitive t j p = .error (.typeMismatch p)) :
    decode t j p = .error (.typeMismatch p) := by
  rw [decode, decode_as_union_not_union _ _ _ (primitive_not_union t hprim), hps,
    decode_as_model_nonmodel t j p (primitive_not_union t hprim)
      (primitive_not_model t hprim).1 (primitive_not_model t hprim).2 hinst]
  simp [FailureReason.isTypeMismatch]

/-! ### Claim theorem: the union strategy (C2) -/

/-- C2: for a union declared type, `decode` tries the members in
declaration order and returns the first member decode that is not a
failure; when every member fails it returns the last member's failure;
a union containing an unresolved type variable is `UnsupportedDecoding`
without trying any member; and concretely
`decode(Union[Model, None], {})` is a `TypeMismatch`. -/
theorem C2_union_order :
    (∀ (args : List PyType) (j : PyVal) (p : DecodePath),
        args.any isTypeVarType = true →
        decode (.tUnion args) j p = .error (.unsupportedDecoding p)) ∧
    (∀ (pre post : List PyType) (t : PyType) (j : PyVal) (p : DecodePath),
        (pre ++ t :: post).any isTypeVarType = false →
        (∀ m ∈ pre, (decode m j p).isError = true) →
        (decode t j p).isError = false →
        decode (.tUnion (pre ++ t :: post)) j p = decode t j p) ∧
    (∀ (args : List PyType) (t : PyType) (j : PyVal) (p : DecodePath),
        args.any isTypeVarType = false →
        args.getLast? = some t →
        (∀ m ∈ args, (decode m j p).isError = true) →
        decode (.tUnion args) j p = decode t j p) ∧
    decode (.tUnion [.tModel userModel, .tNone]) (.vDict []) [] =
      .error (.typeMismatch []) := by
  refine ⟨decode_union_typevar, ?_, ?_, ?_⟩
  · intro pre post t j p hTV hpre hok
    rw [decode_union_eq_members _ _ _ hTV]
    exact decodeUnionMembers_first_ok pre post t j p hpre hok
  · intro args t j p hTV hlast hfail
    rw [decode_union_eq_members _ _ _ hTV]
    exact decodeUnionMembers_all_fail args j p t hlast hfail
  · have h1 : decode (.tModel userModel) (.vDict []) [] = .error (.typeMismatch []) := by
      rw [decode, decode_as_union_not_union (.tModel userModel) (.vDict []) [] rfl]
      have hp : decode_as_primitive (.tModel userModel) (.vDict []) [] =
          .error (.unsupportedDecoding []) := by
        simp [decode_as_primitive, isPrimitiveType]
      have hm : decode_as_model (.tModel userModel) (.vDict []) [] =
          .error (.typeMismatch []) := by
        simp [decode_as_model, originIsUnion, isinstanceOf, issubclassPydantic,
          issubclassMarshmallow, userModel, pyTruthy]
      rw [hp, hm]
      simp [FailureReason.isTypeMismatch]
    have h2 : decode .tNone (.vDict []) [] = .error (.typeMismatch []) :=
      decode_mismatch_of _ _ _ rfl rfl
        (by simp [decode_as_primitive, isPrimitiveType, isinstanceOf])
    rw [decode_union_eq_members [.tModel userModel, .tNone] (.vDict []) [] rfl]
    have hall : ∀ m ∈ [PyType.tModel userModel, PyType.tNone],
        (decode m (.vDict []) []).isError = true := by
      intro m hm
      rcases List.mem_cons.mp hm with rfl | hm2
      · simp [h1, DecodeResult.isError]
      · rcases List.mem_cons.mp hm2 with rfl | hm3
        · simp [h2, DecodeResult.isError]
        · cases hm3
    rw [decodeUnionMembers_all_fail [.tModel userModel, .tNone] (.vDict []) [] .tNone
      rfl hall, h2]

theorem C2_witness :
    decode (.tUnion [.tStr, .tInt]) (.vInt 5) [] = decode .tInt (.vInt 5) [] ∧
      decode (.tUnion [.tInt, .tStr]) .vNone [] = decode .tStr .vNone [] := by
  have hstr5 : decode .tStr (.vInt 5) [] = .error (.typeMismatch []) :=
    decode_mismatch_of _ _ _ rfl rfl
      (by simp [decode_as_primitive, isPrimitiveType, isinstanceOf])
  have hint5 : decode .tInt (.vInt 5) [] = .ok (.vInt 5) :=
    decode_primitive_pass _ _ _ rfl rfl
  have hintn : decode .tInt .vNone [] = .error (.typeMismatch []) :=
    decode_mismatch_of _ _ _ rfl rfl
      (by simp [decode_as_primitive, isPrimitiveType, isinstanceOf])
  have hstrn : decode .tStr .vNone [] = .error (.typeMismatch []) :=
    decode_mismatch_of _ _ _ rfl rfl
      (by simp [decode_as_primitive, isPrimitiveType, isinstanceOf])
  constructor
  · refine C2_union_order.2.1 [.tStr] [] .tInt (.vInt 5) [] rfl ?_ ?_
    · intro m hm
      rcases List.mem_singleton.mp hm with rfl
      simp [hstr5, DecodeResult.isError]
    · simp [hint5, DecodeResult.isError]
  · refine C2_union_order.2.2.1 [.tInt, .tStr] .tStr .vNone [] rfl rfl ?_
    intro m hm
    rcases List.mem_cons.mp hm with rfl | hm2
    · simp [hintn, DecodeResult.isError]
    · rcases List.mem_cons.mp hm2 with rfl | hm3
      · simp [hstrn, DecodeResult.isError]
      · cases hm3

/-! ### Exact-parse bridging lemmas for C3 -/

lemma ratOfParts_eq_intCast (m e : Int) (h : partsIsInteger (m, e) = true) :
    ratOfParts (m, e) = ((partsIntValue (m, e) : Int) : ℚ) := by
  by_cases he : (0 : Int) ≤ e
  · lift e to ℕ using he
    simp only [ratOfParts, partsIntValue, if_pos (by positivity : (0:Int) ≤ (e:Int)),
      zpow_natCast, Int.toNat_natCast]
    push_cast
    ring
  · obtain ⟨n, rfl⟩ : ∃ n : ℕ, e = -(n : Int) := ⟨(-e).toNat, by omega⟩
    have hdvd : ((10 : Int) ^ n) ∣ m := by
      have h' := h
      simp only [partsIsInteger, if_neg he, neg_neg, Int.toNat_natCast, beq_iff_eq] at h'
      exact Int.dvd_of_emod_eq_zero h'
    obtain ⟨c, hc⟩ := hdvd
    have hpow : ((10 : Int) ^ n) ≠ 0 := by positivity
    have hval : partsIntValue (m, -(n : Int)) = c := by
      simp only [partsIntValue, if_neg he, neg_neg, Int.toNat_natCast, hc]
      exact Int.mul_ediv_cancel_left c hpow
    rw [hval]
    simp only [ratOfParts]
    rw [show ((10:ℚ) ^ (-(n:Int))) = ((10:ℚ) ^ n)⁻¹ by rw [zpow_neg, zpow_natCast], hc]
    have hq : ((10 : ℚ) ^ n) ≠ 0 := by positivity
    push_cast
    field_simp

lemma partsIsInteger_iff_exists (m e : Int) :
    partsIsInteger (m, e) = true ↔ ∃ k : Int, ratOfParts (m, e) = (k : ℚ) := by
  constructor
  · intro h
    exact ⟨partsIntValue (m, e), ratOfParts_eq_intCast m e h⟩
  · rintro ⟨k, hk⟩
    by_cases he : (0 : Int) ≤ e
    · simp [partsIsInteger, he]
    · obtain ⟨n, rfl⟩ : ∃ n : ℕ, e = -(n : Int) := ⟨(-e).toNat, by omega⟩
      simp only [ratOfParts] at hk
      rw [show ((10:ℚ) ^ (-(n:Int))) = ((10:ℚ) ^ n)⁻¹ by rw [zpow_neg, zpow_natCast]] at hk
      have hq : ((10 : ℚ) ^ n) ≠ 0 := by positivity
      have hm : (m : ℚ) = (k : ℚ) * ((10 : ℚ) ^ n) := by
        field_simp at hk
        linarith [hk]
      have hmz : m = k * ((10 : Int) ^ n) := by exact_mod_cast hm
      simp only [partsIsInteger, if_neg he, neg_neg, Int.toNat_natCast, beq_iff_eq]
      exact Int.emod_eq_zero_of_dvd ⟨k, by linarith [hmz]⟩

/-- C3: with declared type int and a string raw value s, `decode`
parses s as a floating-point number (modelled exactly) and returns its
integer value when that number has no fractional part, and a
`TypeMismatch` otherwise; concretely `decode(int, "3") == 3` while
`decode(int, "3.5")` and `decode(int, "abc")` are `TypeMismatch`. -/
theorem C3_int_from_string :
    (∀ (s : String) (p : DecodePath),
        decode .tInt (.vStr s) p = parse_int_from_string s p) ∧
    (∀ (s : String) (m e : Int), pyFloatParts s = some (m, e) →
        (∀ k : Int, ratOfParts (m, e) = (k : ℚ) →
          decode .tInt (.vStr s) [] = .ok (.vInt k)) ∧
        ((¬ ∃ k : Int, ratOfParts (m, e) = (k : ℚ)) →
          decode .tInt (.vStr s) [] = .error (.typeMismatch []))) ∧
    (∀ s : String, pyFloatParts s = none →
        decode .tInt (.vStr s) [] = .error (.typeMismatch [])) ∧
    decode .tInt (.vStr "3") [] = .ok (.vInt 3) ∧
    decode .tInt (.vStr "3.5") [] = .error (.typeMismatch []) ∧
    decode .tInt (.vStr "abc") [] = .error (.typeMismatch []) := by
  refine ⟨decode_int_string, ?_, ?_, ?_, ?_, ?_⟩
  · intro s m e hf
    constructor
    · intro k hk
      have hint : partsIsInteger (m, e) = true :=
        (partsIsInteger_iff_exists m e).mpr ⟨k, hk⟩
      have hkv : k = partsIntValue (m, e) := by
        have hq : (k : ℚ) = (partsIntValue (m, e) : ℚ) := by
          rw [← hk, ratOfParts_eq_intCast m e hint]
        exact_mod_cast hq
      subst hkv
      rw [decode_int_string]
      simp [parse_int_from_string, hf, hint]
    · intro hne
      have hint : partsIsInteger (m, e) = false := by
        cases hgi : partsIsInteger (m, e)
        · rfl
        · exact absurd ((partsIsInteger_iff_exists m e).mp hgi) hne
      rw [decode_int_string]
      simp [parse_int_from_string, hf, hint]
  · intro s hf
    rw [decode_int_string]
    simp [parse_int_from_string, hf]
  · rw [decode_int_string]
    simp [parse_int_from_string,
      show pyFloatParts "3" = some (3, 0) from by decide,
      show partsIsInteger (3, 0) = true from by decide,
      show partsIntValue (3, 0) = 3 from by decide]
  · rw [decode_int_string]
    simp [parse_int_from_string,
      show pyFloatParts "3.5" = some (35, -1) from by decide,
      show partsIsInteger (35, -1) = false from by decide]
  · rw [decode_int_string]
    simp [parse_int_from_string,
      show pyFloatParts "abc" = none from by decide]

theorem C3_witness :
    pyFloatParts "20e-1" = some (20, -1) ∧ ratOfParts (20, -1) = ((2 : Int) : ℚ) ∧
      decode .tInt (.vStr "20e-1") [] = .ok (.vInt 2) := by
  refine ⟨by decide, ?_, ?_⟩
  · rw [show ((2:Int):ℚ) = (20 : ℚ) * ((10:ℚ) ^ (1:ℕ))⁻¹ by norm_num]
    simp only [ratOfParts]
    rw [show ((10:ℚ) ^ ((-1) : Int)) = ((10:ℚ) ^ (1:ℕ))⁻¹ by
      rw [show ((-1) : Int) = -((1:ℕ) : Int) from rfl, zpow_neg, zpow_natCast]]
    norm_num
  · refine (C3_int_from_string.2.1 "20e-1" 20 (-1) (by decide)).1 2 ?_
    rw [show ((2:Int):ℚ) = (20 : ℚ) * ((10:ℚ) ^ (1:ℕ))⁻¹ by norm_num]
    simp only [ratOfParts]
    rw [show ((10:ℚ) ^ ((-1) : Int)) = ((10:ℚ) ^ (1:ℕ))⁻¹ by
      rw [show ((-1) : Int) = -((1:ℕ) : Int) from rfl, zpow_neg, zpow_natCast]]
    norm_num

theorem C10_witness :
    decode .tFloat (.vInt 7) [] = .error (.typeMismatch []) ∧
      (isPrimitiveType .tBool = true ∧
        decode_as_primitive .tBool (.vInt 7) [] = .error (.typeMismatch [])) :=
  ⟨C10_no_widening.1 7 [], rfl,
    by
      rcases C10_no_widening.2 .tBool (.vInt 7) [] rfl with ⟨h, _⟩ | h | ⟨h, _⟩
      · exact absurd h (by simp [isinstanceOf])
      · exact h
      · exact absurd h (by simp)⟩

/-! ### Claim theorem: external serializer exceptions (C1) -/

/-- C1: when a registered provider's construct-from-mapping raises, the
model strategy does wrap the exception as
`ExternalSerializerException` — but `decode` itself then discards that
failure (its loop records only `TypeMismatch` reasons) and returns
`UnsupportedDecoding` instead, and in general no `decode` outcome ever
carries an `ExternalSerializerException`.  This contradicts the claim
(and `middleware/typing_.py`'s re-raise branch for that reason, which
is therefore unreachable). -/
theorem C1_external_exception_dropped :
    decode_as_model (.tModel boomModel) (.vDict [("field", .vInt 1)]) [] =
      .error (.externalSerializerException [] "ValidationError: boom") ∧
    decode (.tModel boomModel) (.vDict [("field", .vInt 1)]) [] =
      .error (.unsupportedDecoding []) ∧
    (∀ (t : PyType) (j : PyVal) (p : DecodePath),
        hasExternalReason (decode t j p) = false) := by
  have hm : decode_as_model (.tModel boomModel) (.vDict [("field", .vInt 1)]) [] =
      .error (.externalSerializerException [] "ValidationError: boom") := by
    simp [decode_as_model, originIsUnion, isinstanceOf, issubclassPydantic,
      issubclassMarshmallow, boomModel, pyTruthy, parse_pydantic_from_dict]
  have hd : decode (.tModel boomModel) (.vDict [("field", .vInt 1)]) [] =
      .error (.unsupportedDecoding []) := by
    rw [decode,
      decode_as_union_not_union (.tModel boomModel) (.vDict [("field", .vInt 1)]) [] rfl]
    have hp : decode_as_primitive (.tModel boomModel) (.vDict [("field", .vInt 1)]) [] =
        .error (.unsupportedDecoding []) := by
      simp [decode_as_primitive, isPrimitiveType]
    rw [hp, hm]
    simp [FailureReason.isTypeMismatch]
  exact ⟨hm, hd, decode_not_external⟩

/-! ### Claim theorems: the request interceptor (C5, C6) -/

/-- C5: at the post-handler checkpoint, a response payload that fails
to decode against the declared return type makes `process_response`
raise a `TypeValidationError` identifying the handler — a server-side
fatal error, never a raised `falcon.HTTPError` client error. -/
theorem C5_response_failure_fatal (rname hname : String) (hint : PyType)
    (respMedia : Option PyVal) (r : FailureReason)
    (h : decode hint (respMedia.getD .vNone) [] = .error r) :
    process_response true true rname (some hname) (some hint) respMedia =
      .typeValidationReturn rname hname (.error r) ∧
    isHTTPErrorOutcome
      (process_response true true rname (some hname) (some hint) respMedia) = false := by
  have hp : process_response true true rname (some hname) (some hint) respMedia =
      .typeValidationReturn rname hname (.error r) := by
    simp [process_response, h]
  exact ⟨hp, by simp [hp, isHTTPErrorOutcome]⟩

theorem C5_witness :
    process_response true true "MyResource" (some "on_post")
        (some (.tUnion [.tModel userModel, .tNone])) (some (.vInt 5)) =
      .typeValidationReturn "MyResource" "on_post" (.error (.typeMismatch [])) := by
  have h1 : decode (.tModel userModel) (.vInt 5) [] = .error (.unsupportedDecoding []) := by
    rw [decode, decode_as_union_not_union (.tModel userModel) (.vInt 5) [] rfl]
    have hp : decode_as_primitive (.tModel userModel) (.vInt 5) [] =
        .error (.unsupportedDecoding []) := by
      simp [decode_as_primitive, isPrimitiveType]
    have hmod : decode_as_model (.tModel userModel) (.vInt 5) [] =
        .error (.externalSerializerException [] "TypeError: argument is not a mapping") := by
      simp [decode_as_model, originIsUnion, isinstanceOf, issubclassPydantic,
        issubclassMarshmallow, userModel, pyTruthy, parse_pydantic_from_dict]
    rw [hp, hmod]
    simp [FailureReason.isTypeMismatch]
  have h2 : decode .tNone (.vInt 5) [] = .error (.typeMismatch []) :=
    decode_mismatch_of _ _ _ rfl rfl
      (by simp [decode_as_primitive, isPrimitiveType, isinstanceOf])
  have hall : ∀ m ∈ [PyType.tModel userModel, PyType.tNone],
      (decode m (.vInt 5) []).isError = true := by
    intro m hm
    rcases List.mem_cons.mp hm with rfl | hm2
    · simp [h1, DecodeResult.isError]
    · rcases List.mem_cons.mp hm2 with rfl | hm3
      · simp [h2, DecodeResult.isError]
      · cases hm3
  have hu : decode (.tUnion [.tModel userModel, .tNone]) (.vInt 5) [] =
      .error (.typeMismatch []) := by
    rw [decode_union_eq_members [.tModel userModel, .tNone] (.vInt 5) [] rfl,
      decodeUnionMembers_all_fail [.tModel userModel, .tNone] (.vInt 5) [] .tNone
        rfl hall, h2]
  exact (C5_response_failure_fatal "MyResource" "on_post"
    (.tUnion [.tModel userModel, .tNone]) (some (.vInt 5)) (.typeMismatch []) hu).1

/-- C6: the claim says `process_resource` raises an HTTP 400 when a
usable Path descriptor's value is missing from the routed parameters.
The code in `middleware/typing_.py` has no such check: with a typed
resource whose GET handler declares `id : int` and an empty routed
parameter mapping, it decodes nothing and then crashes with
`AttributeError` on `resource.methods_body_parameters` (an attribute no
class in the repository defines); it never raises HTTP 400. -/
theorem C6_missing_path_no_400 :
    process_resource true (some "on_get") [("id", .tInt)] [] =
      .attributeError "methods_body_parameters" ∧
    isBadRequestOutcome (process_resource true (some "on_get") [("id", .tInt)] []) =
      false := by
  have h : process_resource true (some "on_get") [("id", .tInt)] [] =
      .attributeError "methods_body_parameters" := by
    simp [process_resource, decodeRoutedParameters]
  exact ⟨h, by simp [h, isBadRequestOutcome]⟩

/-! ### Claim theorem: the registration-time handler wrapper (C8) -/

/-- C8: the wrapped handler assigns the raw handler's returned value to
`response.media` only when that value is truthy; on an empty/None
return it leaves the response exactly as the handler left it
(including any payload the handler assigned directly), and it never
touches anything but the media slot. -/
theorem C8_wrapper_frame {ρq ρ : Type}
    (method : ρq → PyResponse ρ → ρq × PyResponse ρ × PyVal)
    (request : ρq) (response : PyResponse ρ)
    (request' : ρq) (response' : PyResponse ρ) (media : PyVal)
    (h : method request response = (request', response', media)) :
    (pyTruthy media = true →
        resource_method_wrapper method request response =
          (request', { response' with media := some media })) ∧
    (pyTruthy media = false →
        resource_method_wrapper method request response = (request', response')) ∧
    (resource_method_wrapper method request response).1 = request' ∧
    (resource_method_wrapper method request response).2.rest = response'.rest := by
  refine ⟨?_, ?_, ?_, ?_⟩
  · intro ht; simp [resource_method_wrapper, h, ht]
  · intro hf; simp [resource_method_wrapper, h, hf]
  · by_cases hm : pyTruthy media <;> simp [resource_method_wrapper, h, hm]
  · by_cases hm : pyTruthy media <;> simp [resource_method_wrapper, h, hm]

theorem C8_witness :
    resource_method_wrapper
        (fun (rq : Nat) (rs : PyResponse Nat) =>
          (rq + 1, { rs with media := some (.vStr "set-by-handler") }, PyVal.vNone))
        0 { media := some (.vStr "old"), rest := 3 } =
      (1, { media := some (.vStr "set-by-handler"), rest := 3 }) :=
  (C8_wrapper_frame
    (fun (rq : Nat) (rs : PyResponse Nat) =>
      (rq + 1, { rs with media := some (.vStr "set-by-handler") }, PyVal.vNone))
    0 { media := some (.vStr "old"), rest := 3 }
    1 { media := some (.vStr "set-by-handler"), rest := 3 } PyVal.vNone rfl).2.1 rfl

/-! ### Signature-validation lemmas and claim theorem (C4) -/

/-- Did the validation succeed (no `TypeValidationError` raised)? -/
def isOkExcept {ε α : Type} : Except ε α → Bool
  | .ok _ => true
  | .error _ => false

lemma two_mem_filter_le (l : List String) (pred : String → Bool) (a b : String)
    (ha : a ∈ l) (hb : b ∈ l) (hab : a ≠ b)
    (hpa : pred a = true) (hpb : pred b = true) :
    2 ≤ (l.filter pred).length := by
  have ha' : a ∈ l.filter pred := List.mem_filter.mpr ⟨ha, hpa⟩
  have hb' : b ∈ l.filter pred := List.mem_filter.mpr ⟨hb, hpb⟩
  have hcard : 1 < (l.filter pred).toFinset.card :=
    Finset.one_lt_card.mpr
      ⟨a, List.mem_toFinset.mpr ha', b, List.mem_toFinset.mpr hb', hab⟩
  have hle := List.toFinset_card_le (l.filter pred)
  omega

/-- 1 if the accumulator slot is already taken, else 0. -/
def slotCount : Option ParamRecord → Nat
  | some _ => 1
  | none => 0

/-- Characterization of one successful non-path step: the resolved kind
was free and is now taken, the other slot is unchanged. -/
lemma nonPathStep_ok (m : String) (hints : List (String × Hint)) (name : String)
    (q b q' b' : Option ParamRecord)
    (h : nonPathStep m hints name q b = .ok (q', b')) :
    (resolvedKind m (hints.lookup name) = .query ∧ q = none ∧
      q' = some (mkParamRecord name (hints.lookup name)) ∧ b' = b) ∨
    (resolvedKind m (hints.lookup name) = .body ∧ b = none ∧
      b' = some (mkParamRecord name (hints.lookup name)) ∧ q' = q) := by
  unfold nonPathStep at h
  split at h
  · exact absurd h (by simp)
  · split at h
    next hk =>
      split at h
      · exact absurd h (by simp)
      · injection h with h'
        injection h' with h1 h2
        exact Or.inl ⟨hk, rfl, h1.symm, h2.symm⟩
    next hk =>
      split at h
      · exact absurd h (by simp)
      · injection h with h'
        injection h' with h1 h2
        exact Or.inr ⟨hk, rfl, h2.symm, h1.symm⟩

/-- If the non-path loop succeeds, each resolved kind is claimed at
most once (counting a kind already present in the accumulator). -/
lemma processNonPath_ok_le (m : String) (hints : List (String × Hint)) :
    ∀ (names : List String) (q b : Option ParamRecord)
      (out : Option ParamRecord × Option ParamRecord),
      processNonPath m hints names q b = .ok out →
      (names.filter
          (fun n => resolvedKind m (hints.lookup n) == ParamKind.query)).length
        + slotCount q ≤ 1 ∧
      (names.filter
          (fun n => resolvedKind m (hints.lookup n) == ParamKind.body)).length
        + slotCount b ≤ 1 := by
  intro names
  induction names with
  | nil =>
    intro q b out _
    constructor <;> cases q <;> cases b <;> simp [slotCount]
  | cons n rest ih =>
    intro q b out h
    rw [processNonPath] at h
    split at h
    · exact absurd h (by simp)
    next q' b' hstep =>
      obtain ⟨ihq, ihb⟩ := ih _ _ _ h
      rcases nonPathStep_ok m hints n q b q' b' hstep with
        ⟨hk, hq0, hq', hb'⟩ | ⟨hk, hb0, hb', hq'⟩
      · subst hq0; subst hq'; subst hb'
        simp only [slotCount] at ihq
        constructor
        · simp only [List.filter_cons, hk, beq_self_eq_true, if_true,
            List.length_cons, slotCount]
          omega
        · simpa [List.filter_cons, hk] using ihb
      · subst hb0; subst hb'; subst hq'
        simp only [slotCount] at ihb
        constructor
        · simpa [List.filter_cons, hk] using ihq
        · simp only [List.filter_cons, hk, beq_self_eq_true, if_true,
            List.length_cons, slotCount]
          omega

/-- A successful signature validation contains a successful non-path
parameter loop. -/
lemma validate_ok_nonpath (m : String) (args : List String)
    (hints : List (String × Hint)) (pp : List String)
    (h : isOkExcept (validate_method_signature m args hints pp) = true) :
    ∃ out, processNonPath m hints (nonPathNames args pp) none none = .ok out := by
  unfold validate_method_signature at h
  split at h
  · simp [isOkExcept] at h
  · split at h
    · simp [isOkExcept] at h
    · split at h
      · simp [isOkExcept] at h
      · split at h
        · simp [isOkExcept] at h
        · split at h
          · simp [isOkExcept] at h
          · split at h
            next heq => simp [isOkExcept] at h
            next q b heq => exact ⟨(q, b), heq⟩

/-- C4: a non-path parameter without an explicit `Query`/`Body` wrapper
resolves to `Body` exactly on the POST/PUT/PATCH handlers and to
`Query` otherwise; a signature in which two distinct non-path
parameters resolve to the same kind never validates (every `.error` is
a raised `TypeValidationError`); and with exactly one (untyped)
non-path parameter on a POST handler validation succeeds, while with
two it fails. -/
theorem C4_param_kind_resolution :
    (∀ (m : String) (h : Option Hint), isWrapperHint h = false →
        resolvedKind m h =
          (if m ∈ httpVerbsWithBodies then ParamKind.body else ParamKind.query)) ∧
    (∀ (m : String) (args : List String) (hints : List (String × Hint))
        (pp : List String),
        isOkExcept (validate_method_signature m args hints pp) = true →
        ∀ n1 n2, n1 ∈ nonPathNames args pp → n2 ∈ nonPathNames args pp → n1 ≠ n2 →
          resolvedKind m (hints.lookup n1) ≠ resolvedKind m (hints.lookup n2)) ∧
    isOkExcept (validate_method_signature "on_post"
      ["self", "request", "response", "payload"] [] []) = true ∧
    isOkExcept (validate_method_signature "on_post"
      ["self", "request", "response", "a", "b"] [] []) = false := by
  refine ⟨?_, ?_, ?_, ?_⟩
  · intro m h hw
    match h with
    | none => rfl
    | some (.ty t) => rfl
    | some .request => rfl
    | some .response => rfl
    | some (.wrapQuery t) => simp [isWrapperHint] at hw
    | some (.wrapBody t) => simp [isWrapperHint] at hw
  · intro m args hints pp hok n1 n2 h1 h2 hne heq
    obtain ⟨out, hout⟩ := validate_ok_nonpath m args hints pp hok
    obtain ⟨hq, hb⟩ := processNonPath_ok_le m hints (nonPathNames args pp) none none out hout
    simp only [slotCount, Nat.add_zero] at hq hb
    cases hk : resolvedKind m (hints.lookup n1) with
    | query =>
      have h2' : resolvedKind m (hints.lookup n2) = ParamKind.query :=
        heq.symm.trans hk
      have := two_mem_filter_le (nonPathNames args pp)
        (fun n => resolvedKind m (hints.lookup n) == ParamKind.query) n1 n2 h1 h2 hne
        (by simp [hk]) (by simp [h2'])
      omega
    | body =>
      have h2' : resolvedKind m (hints.lookup n2) = ParamKind.body :=
        heq.symm.trans hk
      have := two_mem_filter_le (nonPathNames args pp)
        (fun n => resolvedKind m (hints.lookup n) == ParamKind.body) n1 n2 h1 h2 hne
        (by simp [hk]) (by simp [h2'])
      omega
  · rfl
  · rfl

theorem C4_witness :
    isOkExcept (validate_method_signature "on_post"
        ["self", "request", "response", "qp", "bp"]
        [("qp", .wrapQuery (.tModel userModel)), ("bp", .wrapBody (.tModel userModel))]
        []) = true ∧
    resolvedKind "on_post"
        (([("qp", Hint.wrapQuery (.tModel userModel)),
           ("bp", Hint.wrapBody (.tModel userModel))]).lookup "qp") ≠
      resolvedKind "on_post"
        (([("qp", Hint.wrapQuery (.tModel userModel)),
           ("bp", Hint.wrapBody (.tModel userModel))]).lookup "bp") := by
  refine ⟨rfl, ?_⟩
  exact C4_param_kind_resolution.2.1 "on_post"
    ["self", "request", "response", "qp", "bp"]
    [("qp", .wrapQuery (.tModel userModel)), ("bp", .wrapBody (.tModel userModel))]
    [] rfl "qp" "bp" (by simp [nonPathNames]) (by simp [nonPathNames]) (by simp)

end Falcontyping
